import Mathlib

/-!
Verification development for the AdvancedAIChatbot repository.

The definitions below are a shallow embedding of the Python source:

* `app/db/models.py` — the row types (`MessageRow`, `ConversationRow`,
  `TopicRow`, `UserRow`); JSON columns are modelled with the small
  `PyVal` value type, timestamps as integer epoch seconds, SQL `Integer`
  columns as `Int`.
* `app/services/user_profile.py` — `get_user_history`, `get_user_topics`,
  `update_user_topics` over explicit table states (lists of rows).
* `app/core/proactive.py` — `generate_recommendations` and
  `should_send_recommendation`.
* `app/core/context.py` — `format_context` (source name `_format_context`).
* `app/core/ai_engine.py` — `generate_response` (source name
  `_generate_response`).

Python dictionaries are modelled as association lists (`List (String × PyVal)`),
so that `d.get(key)` / `d[key]` accesses are represented by key lookup exactly
as written in the source; this matters because `generate_recommendations`
looks messages up under the key "message_metadata" while `get_user_history`
emits the key "metadata".  SQL `ORDER BY` is realised by a stable insertion
sort on the queried key.
-/

/-- A Python/JSON value, restricted to the shapes this codebase stores in its
JSON columns and passes around in dicts.  `vobj` stands for a value that is a
non-JSON Python object (used for the SQLAlchemy table-description object that
the attribute `msg.metadata` resolves to in `get_user_history`, since the
`Message` model's JSON column is named `message_metadata`). -/
inductive PyVal where
  | vstr (s : String)
  | vint (n : Int)
  | vbool (b : Bool)
  | vstrlist (xs : List String)
  | vdict (kvs : List (String × PyVal))
  | vobj

/-- `d.get(k)` on a Python dict modelled as an association list. -/
def dictGet (kvs : List (String × PyVal)) (k : String) : Option PyVal :=
  (kvs.find? (fun kv => kv.1 == k)).map (fun kv => kv.2)

/-- Python truthiness of the values `PyVal` can take. -/
def PyVal.truthy : PyVal → Bool
  | .vstr s => !s.isEmpty
  | .vint n => n != 0
  | .vbool b => b
  | .vstrlist xs => !xs.isEmpty
  | .vdict kvs => !kvs.isEmpty
  | .vobj => true

/-- Python truthiness of the result of a `.get` (absent key is `None`, falsy). -/
def optTruthy : Option PyVal → Bool
  | none => false
  | some v => v.truthy

/-- The string elements of a `topics` metadata value; the code only ever
stores lists of strings under the "topics" key. -/
def pyStrList : Option PyVal → List String
  | some (PyVal.vstrlist xs) => xs
  | _ => []

/-- `users` table row (`app/db/models.py`, class `User`).  Only the columns the
verified operations read are carried; `preferences` is the JSON column. -/
structure Preferences where
  disable_proactive : Option Bool
  recommendation_frequency : Option String
  last_recommendation_time : Option Int
  /-- residual, untyped preference entries that the engine never interprets -/
  extra : List (String × String)
deriving DecidableEq

structure UserRow where
  id : Int
  preferences : Preferences
deriving DecidableEq

/-- `conversations` table row (`app/db/models.py`, class `Conversation`). -/
structure ConversationRow where
  id : Int
  user_id : Int
  title : String
  created_at : Int
  updated_at : Int

/-- `messages` table row (`app/db/models.py`, class `Message`); the JSON
column is named `message_metadata`. -/
structure MessageRow where
  id : Int
  conversation_id : Int
  content : String
  is_user : Bool
  created_at : Int
  message_metadata : List (String × PyVal)

/-- `user_topics` table row (`app/db/models.py`, class `UserTopic`). -/
structure TopicRow where
  user_id : Int
  topic : String
  weight : Int
  last_mentioned : Int
deriving DecidableEq

/-- Stable insertion of `a` into `l` under the boolean relation `le`. -/
def insertByLe (le : α → α → Bool) (a : α) : List α → List α
  | [] => [a]
  | b :: l => if le a b then a :: b :: l else b :: insertByLe le a l

/-- Stable sort realising the SQL `ORDER BY` clauses of the queried services. -/
def sortByLe (le : α → α → Bool) : List α → List α
  | [] => []
  | a :: l => insertByLe le a (sortByLe le l)

/-- The per-message dict built by `UserProfileService.get_user_history`
(`app/services/user_profile.py`).  Note the keys: the metadata entry is stored
under "metadata" (and its value, `msg.metadata`, resolves to the SQLAlchemy
table-description object, not the `message_metadata` column); `created_at` is
emitted via `isoformat()`, rendered here by `toString` of the epoch value —
no downstream code reads it. -/
def historyMessageDict (m : MessageRow) : List (String × PyVal) :=
  [("id", PyVal.vint m.id),
   ("content", PyVal.vstr m.content),
   ("is_user", PyVal.vbool m.is_user),
   ("created_at", PyVal.vstr (toString m.created_at)),
   ("metadata", PyVal.vobj)]

/-- The per-conversation dict built by `get_user_history`. -/
structure HistConv where
  id : Int
  title : String
  created_at : Int
  messages : List (List (String × PyVal))

/-- `UserProfileService.get_user_history`: the most recent `limit`
conversations of the user (by `updated_at` descending), each with its
messages ordered by `created_at` ascending, rendered as dicts. -/
def get_user_history (convs : List ConversationRow) (msgs : List MessageRow)
    (user_id : Int) (limit : Nat) : List HistConv :=
  let conversations :=
    (sortByLe (fun a b => decide (b.updated_at ≤ a.updated_at))
      (convs.filter (fun c => c.user_id == user_id))).take limit
  conversations.map (fun conv =>
    let messages :=
      sortByLe (fun a b => decide (a.created_at ≤ b.created_at))
        (msgs.filter (fun m => m.conversation_id == conv.id))
    { id := conv.id, title := conv.title, created_at := conv.created_at,
      messages := messages.map historyMessageDict })

/-- The per-topic dict built by `UserProfileService.get_user_topics`. -/
structure TopicD where
  topic : String
  weight : Int
  last_mentioned : Int
deriving DecidableEq

/-- `UserProfileService.get_user_topics`: the user's topics ordered by weight
descending, truncated to `limit`. -/
def get_user_topics (store : List TopicRow) (user_id : Int) (limit : Nat) :
    List TopicD :=
  ((sortByLe (fun a b => decide (b.weight ≤ a.weight))
      (store.filter (fun r => r.user_id == user_id))).take limit).map
    (fun r => { topic := r.topic, weight := r.weight,
                last_mentioned := r.last_mentioned })

/-- A recommendation dict produced by `ProactiveEngine.generate_recommendations`
(`app/core/proactive.py`): keys "type", "topic", "message". -/
structure Rec where
  type : String
  topic : String
  message : String
deriving DecidableEq

def frequentTopicMessage (t : String) : String :=
  "I notice you've asked about " ++ t ++
    " several times. Would you like more comprehensive information about it?"

def reminderMessage (t : String) : String :=
  "It's been a while since we discussed " ++ t ++
    ". Any updates or questions on that front?"

def followUpMessage : String :=
  "Would you like me to explain more about how this technology works?"

/-- The value `msg["message_metadata"].get("topics")` guarded by the source's
condition chain (`.get` on a non-dict would raise; the guard makes the
fall-through case unreachable in Python). -/
def metaTopics (msg : List (String × PyVal)) : Option PyVal :=
  match dictGet msg "message_metadata" with
  | some (PyVal.vdict kvs) => dictGet kvs "topics"
  | _ => none

/-- The topics a single history message contributes to the frequency tally:
the loop body guard `msg["is_user"] and msg.get("message_metadata") and
msg["message_metadata"].get("topics")` of `generate_recommendations`. -/
def msgFrequentTopics (msg : List (String × PyVal)) : List String :=
  if optTruthy (dictGet msg "is_user") && optTruthy (dictGet msg "message_metadata")
      && optTruthy (metaTopics msg) then
    pyStrList (metaTopics msg)
  else []

/-- `topic_frequency[topic] = topic_frequency.get(topic, 0) + 1` on a dict in
insertion order. -/
def bumpTally (acc : List (String × Nat)) (t : String) : List (String × Nat) :=
  if acc.any (fun kv => kv.1 == t) then
    acc.map (fun kv => if kv.1 == t then (kv.1, kv.2 + 1) else kv)
  else acc ++ [(t, 1)]

/-- The `topic_frequency` tally of `generate_recommendations`: every message of
every fetched conversation contributes its guarded metadata topics. -/
def topicFrequency (history : List HistConv) : List (String × Nat) :=
  history.foldl
    (fun acc conv =>
      conv.messages.foldl
        (fun acc msg => (msgFrequentTopics msg).foldl bumpTally acc) acc)
    []

/-- First stage of `generate_recommendations`: a "frequent_topic" entry for
every tallied topic with frequency at least 3, in tally order. -/
def frequentTopicRecs (history : List HistConv) : List Rec :=
  (topicFrequency history).filterMap
    (fun tf =>
      if 3 ≤ tf.2 then
        some { type := "frequent_topic", topic := tf.1,
               message := frequentTopicMessage tf.1 }
      else none)

/-- Second stage of `generate_recommendations`: `(now - last_mentioned).days`
is the floor of the elapsed seconds over one day (Python `timedelta.days`
floors toward negative infinity, as does `Int.fdiv`). -/
def reminderRecs (now : Int) (topics : List TopicD) : List Rec :=
  topics.filterMap
    (fun topic =>
      let days_since := Int.fdiv (now - topic.last_mentioned) 86400
      if days_since > 7 ∧ topic.weight > 5 then
        some { type := "reminder", topic := topic.topic,
               message := reminderMessage topic.topic }
      else none)

/-- Third stage of `generate_recommendations`: the follow-up heuristic on the
last message of the most recent conversation. -/
def followUpRecs (history : List HistConv) : List Rec :=
  match history with
  | [] => []
  | last_conversation :: _ =>
    match last_conversation.messages.getLast? with
    | none => []
    | some last_message =>
      if optTruthy (dictGet last_message "is_user") then []
      else if optTruthy (dictGet last_message "message_metadata")
          && optTruthy (metaTopics last_message)
          && (pyStrList (metaTopics last_message)).contains "technology" then
        [{ type := "follow_up", topic := "technology",
           message := followUpMessage }]
      else []

/-- `ProactiveEngine.generate_recommendations` (`app/core/proactive.py`):
the three stages append to one list in order, and the result is truncated to
the first 3 entries.  `now` is the `datetime.utcnow()` sample. -/
def generate_recommendations (convs : List ConversationRow)
    (msgs : List MessageRow) (topicStore : List TopicRow)
    (now : Int) (user_id : Int) : List Rec :=
  let topics := get_user_topics topicStore user_id 20
  let history := get_user_history convs msgs user_id 10
  (frequentTopicRecs history ++ reminderRecs now topics
    ++ followUpRecs history).take 3

/-- The in-place mutation of the `User` ORM object returned by `.first()`:
only the `last_recommendation_time` preference entry changes. -/
def stampUser (u : UserRow) (now : Int) : UserRow :=
  { u with preferences :=
      { u.preferences with last_recommendation_time := some now } }

/-- Committing that mutation: the first row whose `id` matches is replaced. -/
def stampFirst : List UserRow → Int → Int → List UserRow
  | [], _, _ => []
  | u :: rest, user_id, now =>
    if u.id == user_id then stampUser u now :: rest
    else u :: stampFirst rest user_id now

/-- `ProactiveEngine.should_send_recommendation` (`app/core/proactive.py`).
The state is the `users` table; the result pairs the returned boolean with
the table after the commit.  `hours_since < gap` comparisons on the float
hour count are rendered as the equivalent integer comparisons on elapsed
seconds (the thresholds are exact in both readings). -/
def should_send_recommendation (users : List UserRow) (now : Int)
    (user_id : Int) : Bool × List UserRow :=
  match (users.filter (fun u => u.id == user_id)).head? with
  | none => (false, users)
  | some user =>
    let preferences := user.preferences
    if preferences.disable_proactive.getD false then
      (false, users)
    else
      let frequency := preferences.recommendation_frequency.getD "medium"
      match preferences.last_recommendation_time with
      | some last_time =>
        let seconds_since := now - last_time
        if frequency == "low" && seconds_since < 24 * 3600 then (false, users)
        else if frequency == "medium" && seconds_since < 6 * 3600 then (false, users)
        else if frequency == "high" && seconds_since < 1 * 3600 then (false, users)
        else (true, stampFirst users user_id now)
      | none => (true, stampFirst users user_id now)

/-- The `.first()` lookup of `update_user_topics`: the first `user_topics` row
matching the user and topic name. -/
def findTopic (store : List TopicRow) (user_id : Int) (topic_name : String) :
    Option TopicRow :=
  (store.filter (fun r => r.user_id == user_id && r.topic == topic_name)).head?

/-- In-place update of the found topic row: `weight += 1`,
`last_mentioned = now`. -/
def bumpFirst : List TopicRow → Int → String → Int → List TopicRow
  | [], _, _, _ => []
  | r :: rest, user_id, topic_name, now =>
    if r.user_id == user_id && r.topic == topic_name then
      { r with weight := r.weight + 1, last_mentioned := now } :: rest
    else r :: bumpFirst rest user_id topic_name now

/-- One iteration of the `update_user_topics` loop: bump the existing row if
found, otherwise add a fresh row with weight 1. -/
def updateTopicStep (user_id : Int) (now : Int) (store : List TopicRow)
    (topic_name : String) : List TopicRow :=
  match findTopic store user_id topic_name with
  | some _ => bumpFirst store user_id topic_name now
  | none => store ++ [{ user_id := user_id, topic := topic_name,
                        weight := 1, last_mentioned := now }]

/-- `UserProfileService.update_user_topics` (`app/services/user_profile.py`):
each detected topic name is processed in list order.  The source samples
`datetime.utcnow()` inside the loop; the call is modelled at one instant
`now`. -/
def update_user_topics (store : List TopicRow) (user_id : Int)
    (detected_topics : List String) (now : Int) : List TopicRow :=
  detected_topics.foldl (updateTopicStep user_id now) store

/-- A history entry as consumed by `ContextBuilder._format_context`
(produced by `_get_conversation_history`): content plus the `is_user` flag. -/
structure CtxMsg where
  content : String
  is_user : Bool

/-- Python `str.rstrip(", ")`: drop trailing characters belonging to the
set containing the comma and the space. -/
def rstripCommaSpace (s : String) : String :=
  String.mk ((s.data.reverse.dropWhile (fun c => c == ',' || c == ' ')).reverse)

/-- The fixed system instruction `_format_context` starts from. -/
def systemInstruction : String :=
  "You are a helpful assistant that learns from user interactions. " ++
    "You should tailor your responses based on the user's history " ++
    "and preferences. "

/-- Stable descending sort by weight, realising
`sorted(user_topics, key=..., reverse=True)`. -/
def sortTopicsDesc (ts : List TopicD) : List TopicD :=
  sortByLe (fun a b => decide (b.weight ≤ a.weight)) ts

/-- `ContextBuilder._format_context` (`app/core/context.py`); preferences are
the `.items()` sequence of the user preference dict, values already rendered
to strings as the f-string does. -/
def format_context (current_message : String)
    (conversation_history : List CtxMsg) (user_topics : List TopicD)
    (user_preferences : List (String × String)) : String :=
  let context := systemInstruction
  let context :=
    if user_preferences.isEmpty then context
    else
      rstripCommaSpace
        (context ++ "The user has the following preferences: " ++
          String.join (user_preferences.map
            (fun kv => kv.1 ++ ": " ++ kv.2 ++ ", "))) ++ ". "
  let context :=
    if user_topics.isEmpty then context
    else
      context ++ "The user has shown interest in the following topics: " ++
        String.intercalate ", "
          (((sortTopicsDesc user_topics).take 5).map (fun t => t.topic)) ++ ". "
  let context :=
    if conversation_history.isEmpty then context
    else
      context ++ "Here's the recent conversation history: " ++
        String.join (conversation_history.map
          (fun msg =>
            "\n" ++ (if msg.is_user then "User" else "Assistant") ++ ": " ++
              msg.content))
  context ++ ("\nUser: " ++ (current_message ++ "\nAssistant: "))

/-- The fixed fallback sentence of `AIEngine._generate_response`
(`app/core/ai_engine.py`); the two adjacent string literals of the source
concatenate to this sentence. -/
def fallback_response : String :=
  "I'm sorry, I'm having trouble generating a response right now. " ++
    "Please try again later."

/-- `AIEngine._generate_response`: the provider call returns the list of
choice contents or fails; `response.choices[0].message["content"]` is read
inside the same `try`, so an empty choice list also lands in the `except`
branch and yields the fallback sentence. -/
def generate_response (complete : String → Except String (List String))
    (context : String) : String :=
  match complete context with
  | Except.ok choices =>
    match choices.head? with
    | some content => content
    | none => fallback_response
  | Except.error _ => fallback_response


/-- A message row posting three user questions about finance, each carrying
the topic in its `message_metadata` column. -/
def financeMsg (i : Int) : MessageRow :=
  { id := i, conversation_id := 1, content := "a finance question",
    is_user := true, created_at := i,
    message_metadata := [("topics", PyVal.vstrlist ["finance"])] }

/-- Rank of a recommendation type in the order the spec requires:
frequent-topic entries first, then reminders, then the follow-up. -/
def recRank (t : String) : Nat :=
  if t = "frequent_topic" then 0 else if t = "reminder" then 1 else 2

/-- The minimum gap, in seconds, the spec names for each frequency tier. -/
def tierGapSeconds (f : String) : Int :=
  if f = "low" then 24 * 3600
  else if f = "medium" then 6 * 3600
  else if f = "high" then 1 * 3600
  else 0

/-- A user whose preferences select the "high" frequency tier and record a
last recommendation at time 0. -/
def prefsHigh : Preferences :=
  { disable_proactive := none, recommendation_frequency := some "high",
    last_recommendation_time := some 0, extra := [] }

def userHigh : UserRow := { id := 1, preferences := prefsHigh }

/-- A user whose `recommendation_frequency` preference holds a value outside
the recognised tiers, with a recorded last recommendation at time 99. -/
def prefsHourly : Preferences :=
  { disable_proactive := none, recommendation_frequency := some "hourly",
    last_recommendation_time := some 99, extra := [] }

def userHourly : UserRow := { id := 1, preferences := prefsHourly }

/-- Whether the character list `pat` occurs contiguously inside `s`. -/
def occursIn (pat : List Char) : List Char → Bool
  | [] => pat.isEmpty
  | c :: rest => pat.isPrefixOf (c :: rest) || occursIn pat rest
/-- The dict emitted by `get_user_history` for a message has no
"message_metadata" key (its metadata travels under the key "metadata"). -/
theorem dictGet_historyMessageDict_mm (m : MessageRow) :
    dictGet (historyMessageDict m) "message_metadata" = none := rfl

theorem msgFrequentTopics_historyMessageDict (m : MessageRow) :
    msgFrequentTopics (historyMessageDict m) = [] := by
  simp [msgFrequentTopics, optTruthy, dictGet_historyMessageDict_mm]

theorem tally_foldl_nil (l : List (List (String × PyVal)))
    (acc : List (String × Nat)) (h : ∀ d ∈ l, msgFrequentTopics d = []) :
    l.foldl (fun a d => (msgFrequentTopics d).foldl bumpTally a) acc = acc := by
  induction l generalizing acc with
  | nil => rfl
  | cons d l ih =>
    rw [List.foldl_cons, h d (List.mem_cons_self d l)]
    exact ih acc (fun d' hd' => h d' (List.mem_cons_of_mem d hd'))

theorem foldl_fixed (f : β → α → β) (l : List α) (b : β)
    (h : ∀ x ∈ l, ∀ a, f a x = a) : l.foldl f b = b := by
  induction l generalizing b with
  | nil => rfl
  | cons x l ih =>
    rw [List.foldl_cons, h x (List.mem_cons_self x l)]
    exact ih b (fun y hy a => h y (List.mem_cons_of_mem x hy) a)

/-- The frequency tally of `generate_recommendations` is empty on every
history produced by `get_user_history`, whatever the database holds. -/
theorem topicFrequency_history (convs : List ConversationRow)
    (msgs : List MessageRow) (uid : Int) (lim : Nat) :
    topicFrequency (get_user_history convs msgs uid lim) = [] := by
  unfold topicFrequency
  apply foldl_fixed
  intro conv hconv acc
  simp only [get_user_history, List.mem_map] at hconv
  obtain ⟨c, -, rfl⟩ := hconv
  apply tally_foldl_nil
  intro d hd
  simp only [List.mem_map] at hd
  obtain ⟨m, -, rfl⟩ := hd
  exact msgFrequentTopics_historyMessageDict m

theorem frequentTopicRecs_history (convs : List ConversationRow)
    (msgs : List MessageRow) (uid : Int) (lim : Nat) :
    frequentTopicRecs (get_user_history convs msgs uid lim) = [] := by
  simp [frequentTopicRecs, topicFrequency_history]

theorem mem_frequentTopicRecs_type {h : List HistConv} {r : Rec}
    (hr : r ∈ frequentTopicRecs h) : r.type = "frequent_topic" := by
  simp only [frequentTopicRecs, List.mem_filterMap] at hr
  obtain ⟨tf, -, htf⟩ := hr
  split at htf
  · cases htf; rfl
  · cases htf

theorem mem_reminderRecs_type {now : Int} {ts : List TopicD} {r : Rec}
    (hr : r ∈ reminderRecs now ts) : r.type = "reminder" := by
  simp only [reminderRecs, List.mem_filterMap] at hr
  obtain ⟨t, -, ht⟩ := hr
  split at ht
  · cases ht; rfl
  · cases ht

theorem mem_followUpRecs_type {h : List HistConv} {r : Rec}
    (hr : r ∈ followUpRecs h) : r.type = "follow_up" := by
  unfold followUpRecs at hr
  split at hr
  · cases hr
  · split at hr
    · cases hr
    · split at hr
      · cases hr
      · split at hr
        · simp only [List.mem_singleton] at hr
          cases hr; rfl
        · cases hr

theorem followUpRecs_length (h : List HistConv) :
    (followUpRecs h).length ≤ 1 := by
  unfold followUpRecs
  split
  · simp
  · split
    · simp
    · split
      · simp
      · split <;> simp

/-- Claim C1: the spec says `generate_recommendations` tallies the topics in
the metadata of user messages across the fetched history and emits a
"frequent_topic" recommendation for every topic tallied at least 3 times.
The code cannot do this: the history dicts carry the metadata under the key
"metadata" while the tally reads the absent key "message_metadata", so on a
user whose three user messages each carry the metadata topic "finance" the
returned list is empty, and in general no input ever yields a
"frequent_topic" entry. -/
theorem generate_recommendations_never_frequent_topic :
    generate_recommendations
        [{ id := 1, user_id := 1, title := "t", created_at := 0,
           updated_at := 0 }]
        [financeMsg 1, financeMsg 2, financeMsg 3] [] 0 1 = []
    ∧ ∀ (convs : List ConversationRow) (msgs : List MessageRow)
        (store : List TopicRow) (now uid : Int),
        (generate_recommendations convs msgs store now uid).all
          (fun r => r.type != "frequent_topic") = true := by
  constructor
  · decide
  · intro convs msgs store now uid
    rw [List.all_eq_true]
    intro r hr
    have hdef : generate_recommendations convs msgs store now uid
        = (frequentTopicRecs (get_user_history convs msgs uid 10)
            ++ reminderRecs now (get_user_topics store uid 20)
            ++ followUpRecs (get_user_history convs msgs uid 10)).take 3 := rfl
    rw [hdef, frequentTopicRecs_history] at hr
    have hr' := List.take_subset 3 _ hr
    simp only [List.nil_append, List.mem_append] at hr'
    rcases hr' with hr' | hr'
    · have := mem_reminderRecs_type hr'
      simp [this]
    · have := mem_followUpRecs_type hr'
      simp [this]

theorem pairwise_of_mem {α : Type} {R : α → α → Prop} :
    ∀ l : List α, (∀ a ∈ l, ∀ b ∈ l, R a b) → l.Pairwise R := by
  intro l h
  induction l with
  | nil => exact List.Pairwise.nil
  | cons a l ih =>
    constructor
    · intro b hb
      exact h a (List.mem_cons_self a l) b (List.mem_cons_of_mem a hb)
    · exact ih (fun x hx y hy =>
        h x (List.mem_cons_of_mem a hx) y (List.mem_cons_of_mem a hy))

/-- Claim C2: the returned recommendation list has at most 3 entries, the
entry types appear in the order frequent-topic, reminder, follow-up, and at
most one follow-up entry occurs. -/
theorem generate_recommendations_cap_and_order :
    ∀ (convs : List ConversationRow) (msgs : List MessageRow)
      (store : List TopicRow) (now uid : Int),
      (generate_recommendations convs msgs store now uid).length ≤ 3
      ∧ ((generate_recommendations convs msgs store now uid).map
          (fun r => recRank r.type)).Pairwise (fun a b => a ≤ b)
      ∧ (generate_recommendations convs msgs store now uid).countP
          (fun r => r.type == "follow_up") ≤ 1 := by
  intro convs msgs store now uid
  have hdef : generate_recommendations convs msgs store now uid
      = (frequentTopicRecs (get_user_history convs msgs uid 10)
          ++ reminderRecs now (get_user_topics store uid 20)
          ++ followUpRecs (get_user_history convs msgs uid 10)).take 3 := rfl
  set F := frequentTopicRecs (get_user_history convs msgs uid 10) with hF
  set R := reminderRecs now (get_user_topics store uid 20) with hR
  set L := followUpRecs (get_user_history convs msgs uid 10) with hL
  have hFt : ∀ r ∈ F, recRank r.type = 0 := by
    intro r hr; rw [mem_frequentTopicRecs_type hr]; rfl
  have hRt : ∀ r ∈ R, recRank r.type = 1 := by
    intro r hr; rw [mem_reminderRecs_type hr]; rfl
  have hLt : ∀ r ∈ L, recRank r.type = 2 := by
    intro r hr; rw [mem_followUpRecs_type hr]; rfl
  refine ⟨?_, ?_, ?_⟩
  · rw [hdef]
    exact List.length_take_le 3 (F ++ R ++ L)
  · have hfull : (F ++ R ++ L).Pairwise
        (fun a b => recRank a.type ≤ recRank b.type) := by
      rw [List.append_assoc, List.pairwise_append]
      refine ⟨pairwise_of_mem F ?_, ?_, ?_⟩
      · intro a ha b hb
        rw [hFt a ha, hFt b hb]
      · rw [List.pairwise_append]
        refine ⟨pairwise_of_mem R ?_, pairwise_of_mem L ?_, ?_⟩
        · intro a ha b hb
          rw [hRt a ha, hRt b hb]
        · intro a ha b hb
          rw [hLt a ha, hLt b hb]
        · intro a ha b hb
          rw [hRt a ha, hLt b hb]
          omega
      · intro a ha b hb
        rw [hFt a ha]
        exact Nat.zero_le _
    rw [hdef, List.map_take]
    exact List.Pairwise.take ((List.pairwise_map).2 hfull)
  · rw [hdef]
    have h1 : (F ++ R ++ L).countP (fun r => r.type == "follow_up")
        = F.countP (fun r => r.type == "follow_up")
          + R.countP (fun r => r.type == "follow_up")
          + L.countP (fun r => r.type == "follow_up") := by
      rw [List.countP_append, List.countP_append]
    have hF0 : F.countP (fun r => r.type == "follow_up") = 0 := by
      rw [List.countP_eq_zero]
      intro r hr
      rw [mem_frequentTopicRecs_type hr]
      decide
    have hR0 : R.countP (fun r => r.type == "follow_up") = 0 := by
      rw [List.countP_eq_zero]
      intro r hr
      rw [mem_reminderRecs_type hr]
      decide
    have hLle : L.countP (fun r => r.type == "follow_up") ≤ 1 :=
      le_trans (List.countP_le_length _) (followUpRecs_length _)
    calc ((F ++ R ++ L).take 3).countP (fun r => r.type == "follow_up")
        ≤ (F ++ R ++ L).countP (fun r => r.type == "follow_up") :=
          ((F ++ R ++ L).take_sublist 3).countP_le _
      _ ≤ 1 := by rw [h1, hF0, hR0]; simpa using hLle

theorem reminderRecs_eq_filter (now : Int) (ts : List TopicD) :
    reminderRecs now ts
      = (ts.filter (fun t =>
            decide (Int.fdiv (now - t.last_mentioned) 86400 > 7
              ∧ t.weight > 5))).map
          (fun t => { type := "reminder", topic := t.topic,
                      message := reminderMessage t.topic }) := by
  induction ts with
  | nil => rfl
  | cons t ts ih =>
    by_cases h : Int.fdiv (now - t.last_mentioned) 86400 > 7 ∧ t.weight > 5
    · simp only [reminderRecs] at ih ⊢
      simp [List.filterMap_cons, List.filter_cons, h, ih]
    · simp only [reminderRecs] at ih ⊢
      simp [List.filterMap_cons, List.filter_cons, h, ih]

/-- Claim C3 counterexample: a stored topic of weight 6 whose last mention
lies 7 days and one hour in the past — an elapsed time strictly exceeding
7 days — yields no "reminder": the code floors the elapsed time to whole
days (`.days`) before comparing with 7, so only elapsed times of at least
8 whole days qualify. -/
theorem reminder_seven_day_boundary :
    ((608400 : Int) - 0 > 7 * 86400) ∧ ((6 : Int) > 5)
    ∧ generate_recommendations [] []
        [{ user_id := 1, topic := "ml", weight := 6, last_mentioned := 0 }]
        608400 1 = [] := by
  decide

/-- Claim C3 (amended): the reminder stage of `generate_recommendations`
emits a "reminder" for exactly those fetched topics (the user's top 20 by
weight) whose floored whole-day elapsed count `(now - last_mentioned).days`
strictly exceeds 7 and whose weight strictly exceeds 5, the final list being
capped at 3 entries. -/
theorem generate_recommendations_reminder_stage :
    ∀ (convs : List ConversationRow) (msgs : List MessageRow)
      (store : List TopicRow) (now uid : Int),
      generate_recommendations convs msgs store now uid
        = (frequentTopicRecs (get_user_history convs msgs uid 10)
            ++ ((get_user_topics store uid 20).filter (fun (t : TopicD) =>
                  decide (Int.fdiv (now - t.last_mentioned) 86400 > 7
                    ∧ t.weight > 5))).map
                (fun (t : TopicD) =>
                  ({ type := "reminder", topic := t.topic,
                     message := reminderMessage t.topic } : Rec))
            ++ followUpRecs (get_user_history convs msgs uid 10)).take 3 := by
  intro convs msgs store now uid
  have hdef : generate_recommendations convs msgs store now uid
      = (frequentTopicRecs (get_user_history convs msgs uid 10)
          ++ reminderRecs now (get_user_topics store uid 20)
          ++ followUpRecs (get_user_history convs msgs uid 10)).take 3 := rfl
  rw [hdef, reminderRecs_eq_filter]

theorem head_filter_stampFirst (users : List UserRow) (uid now : Int) :
    ((stampFirst users uid now).filter (fun x => x.id == uid)).head?
      = ((users.filter (fun x => x.id == uid)).head?).map
          (fun x => stampUser x now) := by
  induction users with
  | nil => rfl
  | cons u rest ih =>
    by_cases h : u.id == uid
    · simp [stampFirst, h, List.filter_cons, stampUser]
    · simp [stampFirst, h, List.filter_cons, ih]

theorem should_send_eval (users : List UserRow) (now last uid : Int)
    (u : UserRow)
    (hu : (users.filter (fun x => x.id == uid)).head? = some u)
    (hd : u.preferences.disable_proactive.getD false = false)
    (hl : u.preferences.last_recommendation_time = some last)
    (ht : u.preferences.recommendation_frequency.getD "medium" = "low"
        ∨ u.preferences.recommendation_frequency.getD "medium" = "medium"
        ∨ u.preferences.recommendation_frequency.getD "medium" = "high") :
    should_send_recommendation users now uid
      = if now - last
            < tierGapSeconds (u.preferences.recommendation_frequency.getD
                "medium") then
          (false, users)
        else (true, stampFirst users uid now) := by
  rcases ht with h | h | h <;>
    simp [should_send_recommendation, hu, hd, hl, h, tierGapSeconds]

/-- Claim C4: for an existing user with proactive recommendations not
disabled and a recorded last recommendation time, under a recognised
frequency tier the call returns true exactly when the elapsed time reaches
the tier's minimum gap (24h for "low", 6h for "medium", 1h for "high"), and
a second call immediately after a call that returned true returns false. -/
theorem should_send_min_gap (users : List UserRow) (now last uid : Int)
    (u : UserRow)
    (hu : (users.filter (fun x => x.id == uid)).head? = some u)
    (hd : u.preferences.disable_proactive.getD false = false)
    (hl : u.preferences.last_recommendation_time = some last)
    (ht : u.preferences.recommendation_frequency.getD "medium" = "low"
        ∨ u.preferences.recommendation_frequency.getD "medium" = "medium"
        ∨ u.preferences.recommendation_frequency.getD "medium" = "high") :
    ((should_send_recommendation users now uid).1 = true
        ↔ tierGapSeconds (u.preferences.recommendation_frequency.getD
            "medium") ≤ now - last)
    ∧ ((should_send_recommendation users now uid).1 = true →
        (should_send_recommendation
          (should_send_recommendation users now uid).2 now uid).1 = false) := by
  have heval := should_send_eval users now last uid u hu hd hl ht
  have hgap : 0 < tierGapSeconds
      (u.preferences.recommendation_frequency.getD "medium") := by
    rcases ht with h | h | h <;> simp [tierGapSeconds, h]
  constructor
  · rw [heval]
    by_cases hlt : now - last
        < tierGapSeconds (u.preferences.recommendation_frequency.getD
            "medium")
    · simp only [if_pos hlt]
      simp
      omega
    · simp only [if_neg hlt]
      simp
      omega
  · intro htrue
    rw [heval] at htrue ⊢
    by_cases hlt : now - last
        < tierGapSeconds (u.preferences.recommendation_frequency.getD
            "medium")
    · rw [if_pos hlt] at htrue
      exact absurd htrue (by simp)
    · rw [if_neg hlt]
      have hu2 : ((stampFirst users uid now).filter
          (fun x => x.id == uid)).head? = some (stampUser u now) := by
        rw [head_filter_stampFirst, hu]
        rfl
      have hd2 : (stampUser u now).preferences.disable_proactive.getD false
          = false := by
        simpa [stampUser] using hd
      have hl2 : (stampUser u now).preferences.last_recommendation_time
          = some now := by
        simp [stampUser]
      have ht2 : (stampUser u now).preferences.recommendation_frequency.getD
            "medium" = "low"
          ∨ (stampUser u now).preferences.recommendation_frequency.getD
            "medium" = "medium"
          ∨ (stampUser u now).preferences.recommendation_frequency.getD
            "medium" = "high" := by
        simpa [stampUser] using ht
      have heval2 := should_send_eval (stampFirst users uid now) now now uid
        (stampUser u now) hu2 hd2 hl2 ht2
      rw [heval2, if_pos]
      have : (stampUser u now).preferences.recommendation_frequency
          = u.preferences.recommendation_frequency := by
        simp [stampUser]
      rw [this]
      omega

theorem should_send_min_gap_witness :
    ((should_send_recommendation [userHigh] 5000 1).1 = true
        ↔ tierGapSeconds (userHigh.preferences.recommendation_frequency.getD
            "medium") ≤ 5000 - 0)
    ∧ ((should_send_recommendation [userHigh] 5000 1).1 = true →
        (should_send_recommendation
          (should_send_recommendation [userHigh] 5000 1).2 5000 1).1
          = false) :=
  should_send_min_gap [userHigh] 5000 0 1 userHigh (by decide) (by decide)
    (by decide) (Or.inr (Or.inr (by decide)))

theorem stampFirst_eq_set (users : List UserRow) (uid now : Int)
    (u : UserRow)
    (h : (users.filter (fun x => x.id == uid)).head? = some u) :
    ∃ i, users.get? i = some u ∧ u.id = uid
      ∧ stampFirst users uid now = users.set i (stampUser u now) := by
  induction users with
  | nil => cases h
  | cons v rest ih =>
    by_cases hv : v.id == uid
    · simp only [List.filter_cons, hv, if_true, List.head?_cons,
        Option.some_inj] at h
      subst h
      refine ⟨0, rfl, by simpa using hv, ?_⟩
      simp [stampFirst, hv]
    · simp only [List.filter_cons, hv, if_false, Bool.false_eq_true] at h
      obtain ⟨i, hget, hid, hset⟩ := ih h
      refine ⟨i + 1, by simpa using hget, hid, ?_⟩
      simp [stampFirst, hv, hset]

theorem should_send_shape (users : List UserRow) (now uid : Int) :
    should_send_recommendation users now uid = (false, users)
    ∨ ∃ u, (users.filter (fun x => x.id == uid)).head? = some u
        ∧ should_send_recommendation users now uid
          = (true, stampFirst users uid now) := by
  unfold should_send_recommendation
  cases hh : (users.filter (fun x => x.id == uid)).head? with
  | none => exact Or.inl rfl
  | some u =>
    by_cases hd : u.preferences.disable_proactive.getD false
    · simp [hd]
    · simp only [hd, Bool.false_eq_true, if_false]
      cases hl : u.preferences.last_recommendation_time with
      | none => exact Or.inr ⟨u, rfl, by simp⟩
      | some last =>
        by_cases h1 : u.preferences.recommendation_frequency.getD "medium"
            = "low" ∧ now - last < 86400
        · simp [h1]
        · by_cases h2 : u.preferences.recommendation_frequency.getD "medium"
              = "medium" ∧ now - last < 21600
          · simp [h1, h2]
          · by_cases h3 : u.preferences.recommendation_frequency.getD
                "medium" = "high" ∧ now - last < 3600
            · simp [h1, h2, h3]
            · exact Or.inr ⟨u, rfl, by simp [h1, h2, h3]⟩

/-- Claim C5: when `should_send_recommendation` returns true it has replaced
exactly one user row — the queried user — changing only the
`last_recommendation_time` preference entry, which it sets to the current
time; when it returns false the users table is unchanged. -/
theorem should_send_frame (users : List UserRow) (now uid : Int) :
    ((should_send_recommendation users now uid).1 = false →
      (should_send_recommendation users now uid).2 = users)
    ∧ ((should_send_recommendation users now uid).1 = true →
      ∃ i u, users.get? i = some u ∧ u.id = uid
        ∧ (should_send_recommendation users now uid).2
          = users.set i (stampUser u now)) := by
  rcases should_send_shape users now uid with heq | ⟨u, hu, heq⟩
  · rw [heq]
    exact ⟨fun _ => rfl, fun h => absurd h (by simp)⟩
  · rw [heq]
    refine ⟨fun h => absurd h (by simp), fun _ => ?_⟩
    obtain ⟨i, hget, hid, hset⟩ := stampFirst_eq_set users uid now u hu
    exact ⟨i, u, hget, hid, hset⟩

theorem should_send_frame_witness :
    ((should_send_recommendation [{ id := 2, preferences := prefsHigh }] 42
        1).1 = false →
      (should_send_recommendation [{ id := 2, preferences := prefsHigh }] 42
        1).2 = [{ id := 2, preferences := prefsHigh }])
    ∧ ((should_send_recommendation [userHigh] 7200 1).1 = true →
      ∃ i u, [userHigh].get? i = some u ∧ u.id = 1
        ∧ (should_send_recommendation [userHigh] 7200 1).2
          = [userHigh].set i (stampUser u 7200)) :=
  ⟨(should_send_frame [{ id := 2, preferences := prefsHigh }] 42 1).1,
    (should_send_frame [userHigh] 7200 1).2⟩

/-- Claim C10: when the `recommendation_frequency` preference is present but
holds none of "low", "medium", "high", no branch of the gap check fires, so
the call returns true and re-stamps `last_recommendation_time` no matter how
recent the previous recommendation was; the "medium" default applies only
when the key is absent. -/
theorem should_send_unrecognized_frequency (users : List UserRow)
    (now uid : Int) (u : UserRow) (f : String)
    (hu : (users.filter (fun x => x.id == uid)).head? = some u)
    (hd : u.preferences.disable_proactive.getD false = false)
    (hf : u.preferences.recommendation_frequency = some f)
    (h1 : f ≠ "low") (h2 : f ≠ "medium") (h3 : f ≠ "high") :
    should_send_recommendation users now uid
      = (true, stampFirst users uid now) := by
  cases hl : u.preferences.last_recommendation_time with
  | none => simp [should_send_recommendation, hu, hd, hl]
  | some last =>
    simp [should_send_recommendation, hu, hd, hl, hf, h1, h2, h3]

theorem should_send_unrecognized_frequency_witness :
    should_send_recommendation [userHourly] 100 1
      = (true, stampFirst [userHourly] 1 100) :=
  should_send_unrecognized_frequency [userHourly] 100 1 userHourly "hourly"
    (by decide) (by decide) (by decide) (by decide) (by decide) (by decide)

theorem findTopic_bumpFirst_same (store : List TopicRow) (uid : Int)
    (name : String) (now : Int) (r : TopicRow)
    (h : findTopic store uid name = some r) :
    findTopic (bumpFirst store uid name now) uid name
      = some { r with weight := r.weight + 1, last_mentioned := now } := by
  induction store with
  | nil => cases h
  | cons t rest ih =>
    by_cases ht : t.user_id == uid && t.topic == name
    · simp only [findTopic, List.filter_cons, ht, if_true, List.head?_cons,
        Option.some_inj] at h
      subst h
      simp [bumpFirst, findTopic, List.filter_cons, ht]
    · simp only [findTopic, List.filter_cons, ht, if_false,
        Bool.false_eq_true] at h
      have ih' := ih h
      simp only [bumpFirst, ht, if_false, Bool.false_eq_true]
      simpa [findTopic, List.filter_cons, ht] using ih'

theorem findTopic_bumpFirst_other (store : List TopicRow) (uid : Int)
    (name name' : String) (now : Int) (hne : name' ≠ name) :
    findTopic (bumpFirst store uid name now) uid name'
      = findTopic store uid name' := by
  induction store with
  | nil => rfl
  | cons t rest ih =>
    by_cases ht : t.user_id == uid && t.topic == name
    · have htop : t.topic = name := by
        have := (Bool.and_eq_true _ _).mp ht
        exact eq_of_beq this.2
      have hne' : (t.topic == name') = false := by
        rw [htop]
        exact beq_eq_false_iff_ne.mpr (fun hx => hne hx.symm)
      simp [bumpFirst, ht, findTopic, List.filter_cons, hne']
    · by_cases ht' : t.user_id == uid && t.topic == name'
      · simp [bumpFirst, ht, findTopic, List.filter_cons, ht']
      · simp only [bumpFirst, ht, if_false, Bool.false_eq_true]
        simpa [findTopic, List.filter_cons, ht'] using ih

theorem findTopic_step_same (store : List TopicRow) (uid now : Int)
    (name : String) :
    findTopic (updateTopicStep uid now store name) uid name
      = match findTopic store uid name with
        | some r =>
            some { r with weight := r.weight + 1, last_mentioned := now }
        | none =>
            some { user_id := uid, topic := name, weight := 1,
                   last_mentioned := now } := by
  cases h : findTopic store uid name with
  | some r =>
    simp [updateTopicStep, h, findTopic_bumpFirst_same store uid name now r h]
  | none =>
    have hnil : store.filter
        (fun r => r.user_id == uid && r.topic == name) = [] := by
      have h' := h
      unfold findTopic at h'
      exact List.head?_eq_none_iff.mp h'
    unfold updateTopicStep
    rw [h]
    simp [findTopic, List.filter_append, hnil]

theorem findTopic_step_other (store : List TopicRow) (uid now : Int)
    (name name' : String) (hne : name' ≠ name) :
    findTopic (updateTopicStep uid now store name) uid name'
      = findTopic store uid name' := by
  cases h : findTopic store uid name with
  | some r =>
    unfold updateTopicStep
    rw [h]
    exact findTopic_bumpFirst_other store uid name name' now hne
  | none =>
    have hne' : (name == name') = false :=
      beq_eq_false_iff_ne.mpr (fun hx => hne hx.symm)
    unfold updateTopicStep
    rw [h]
    simp [findTopic, List.filter_append, hne']

/-- Claim C6: `update_user_topics` processes the detected names in order,
bumping an existing (user, topic) row by 1 per occurrence and creating a
missing row at weight 1, so after the call the row found for a name carries
its old weight plus the number of occurrences of that name in the list (or
exactly that count for a fresh topic), with `last_mentioned` set to now; in
particular two occurrences of "x" on a fresh user leave weight 2. -/
theorem update_user_topics_spec :
    (∀ (store : List TopicRow) (uid : Int) (names : List String) (now : Int)
      (name : String),
      findTopic (update_user_topics store uid names now) uid name
        = match findTopic store uid name with
          | some r =>
              if names.count name = 0 then some r
              else
                some { r with
                       weight := r.weight + (names.count name : Int),
                       last_mentioned := now }
          | none =>
              if names.count name = 0 then none
              else
                some { user_id := uid,
                       topic := name,
                       weight := (names.count name : Int),
                       last_mentioned := now })
    ∧ findTopic (update_user_topics [] 1 ["x", "x"] 0) 1 "x"
        = some { user_id := 1,
                 topic := "x",
                 weight := 2,
                 last_mentioned := 0 } := by
  constructor
  · intro store uid names now name
    induction names generalizing store with
    | nil =>
      cases h : findTopic store uid name <;> simp [update_user_topics, h]
    | cons n ns ih =>
      have hstep : update_user_topics store uid (n :: ns) now
          = update_user_topics (updateTopicStep uid now store n) uid ns now :=
        rfl
      rw [hstep, ih]
      by_cases hn : name = n
      · subst hn
        rw [findTopic_step_same]
        cases h : findTopic store uid name with
        | some r =>
          obtain ⟨ruid, rtopic, rweight, rlast⟩ := r
          by_cases hc : ns.count name = 0 <;>
            (simp [h, hc, List.count_cons_self]; try omega)
        | none =>
          by_cases hc : ns.count name = 0 <;>
            (simp [h, hc, List.count_cons_self]; try omega)
      · rw [findTopic_step_other store uid now n name hn]
        rw [List.count_cons_of_ne hn]
  · decide

theorem bumpFirst_weights (store : List TopicRow) (uid : Int) (name : String)
    (now : Int) (h : ∀ r ∈ store, 1 ≤ r.weight) :
    ∀ r ∈ bumpFirst store uid name now, 1 ≤ r.weight := by
  induction store with
  | nil => simp [bumpFirst]
  | cons t rest ih =>
    intro r hr
    by_cases ht : t.user_id == uid && t.topic == name
    · simp only [bumpFirst, ht, if_true] at hr
      rcases List.mem_cons.mp hr with rfl | hr
      · have := h t (List.mem_cons_self t rest)
        simp only
        omega
      · exact h r (List.mem_cons_of_mem t hr)
    · simp only [bumpFirst, ht, if_false, Bool.false_eq_true] at hr
      rcases List.mem_cons.mp hr with rfl | hr
      · exact h r (List.mem_cons_self r rest)
      · exact ih (fun x hx => h x (List.mem_cons_of_mem t hx)) r hr

theorem updateTopicStep_weights (uid now : Int) (store : List TopicRow)
    (name : String) (h : ∀ r ∈ store, 1 ≤ r.weight) :
    ∀ r ∈ updateTopicStep uid now store name, 1 ≤ r.weight := by
  unfold updateTopicStep
  cases findTopic store uid name with
  | some t => exact bumpFirst_weights store uid name now h
  | none =>
    intro r hr
    rcases List.mem_append.mp hr with hr | hr
    · exact h r hr
    · simp only [List.mem_singleton] at hr
      subst hr
      exact Int.le_refl 1

/-- Claim C8: the topic store only ever holds rows of weight at least 1 —
rows are created at weight 1 and `update_user_topics`, the sole writer,
otherwise only increments existing weights and deletes nothing. -/
theorem update_user_topics_weight_ge_one (store : List TopicRow) (uid : Int)
    (names : List String) (now : Int) (h : ∀ r ∈ store, 1 ≤ r.weight) :
    ∀ r ∈ update_user_topics store uid names now, 1 ≤ r.weight := by
  induction names generalizing store with
  | nil => exact h
  | cons n ns ih => exact ih _ (updateTopicStep_weights uid now store n h)

theorem update_user_topics_weight_ge_one_witness :
    1 ≤ (TopicRow.mk 1 "a" 2 5).weight :=
  update_user_topics_weight_ge_one [TopicRow.mk 1 "a" 1 0] 1 ["a"] 5
    (by decide) (TopicRow.mk 1 "a" 2 5) (by decide)

/-- Claim C7: with empty history, topics and preferences, the built context
is exactly the system instruction followed by the final user/assistant
suffix: none of the three optional clauses is emitted, and the string ends
with the suffix introducing the current message. -/
theorem format_context_empty_sections :
    ∀ current_message : String,
      format_context current_message [] [] []
        = systemInstruction
            ++ ("\nUser: " ++ (current_message ++ "\nAssistant: "))
      ∧ (∃ p, format_context current_message [] [] []
            = p ++ ("\nUser: " ++ (current_message ++ "\nAssistant: ")))
      ∧ occursIn "The user has the following preferences: ".data
          systemInstruction.data = false
      ∧ occursIn "The user has shown interest in the following topics: ".data
          systemInstruction.data = false
      ∧ occursIn "Here's the recent conversation history: ".data
          systemInstruction.data = false := by
  intro current_message
  exact ⟨rfl, ⟨systemInstruction, rfl⟩, by decide, by decide, by decide⟩

/-- Claim C9: whenever the provider call fails, `_generate_response` returns
the fixed fallback sentence; the embedded function is total, so no provider
error ever propagates to the caller. -/
theorem generate_response_fallback :
    ∀ (complete : String → Except String (List String)) (context e : String),
      complete context = Except.error e →
      generate_response complete context = fallback_response := by
  intro complete context e h
  simp [generate_response, h]

theorem generate_response_fallback_witness :
    generate_response (fun _ => Except.error "boom") "ctx"
      = fallback_response :=
  generate_response_fallback (fun _ => Except.error "boom") "ctx" "boom" rfl
